import Mathlib

/-!
Verification of the aggregation engine of the Auto-EDA-Dashboard repository
(src/eda_app.py), as a shallow embedding in Lean 4.

Part A models the ingestion phase at column level: a dataframe is an
association list from column names to columns of cells, column access models
pandas bracket lookup (raising KeyError, here Except.error, when the column
is absent), to_datetime with coerce semantics turns unparseable cells into
null, and the revenue column is the elementwise product
quantity * price * (1 - discount) with null propagation.

Part B models the view catalogue at row level, on datasets that carry the
canonical schema: groupby sorts the distinct non-null keys ascending and
drops rows whose key is null, sum skips null values, nunique counts distinct
non-null identifiers, and sort_values with ascending=False is modelled the
way pandas implements it, as the reverse of an ascending sort by value, so
equal values come out in the reverse of the aggregation order.
-/

namespace EDA

/-- Cell of a dataframe: a number, a string, a date, or null (NaN / NaT). -/
inductive Val where
  | num (q : ℚ)
  | str (s : String)
  | date (y m d : Nat)
  | null
deriving DecidableEq, Repr

/-- Column-oriented dataframe: association list from column name to cells. -/
abbrev DataFrame := List (String × List Val)

/-- Bracket lookup df[c]: the column when present, a KeyError otherwise. -/
def getCol (df : DataFrame) (c : String) : Except String (List Val) :=
  match df.lookup c with
  | some v => Except.ok v
  | none => Except.error c

/-- Column-presence test, c in df.columns. -/
def hasCol (df : DataFrame) (c : String) : Bool :=
  (df.lookup c).isSome

/-- Column assignment df[c] = v: replace the column in place, else append. -/
def setCol : DataFrame → String → List Val → DataFrame
  | [], c, v => [(c, v)]
  | (c', v') :: rest, c, v =>
      if c' = c then (c, v) :: rest else (c', v') :: setCol rest c v

/-- Character list split at every dash, keeping empty pieces. -/
def splitDash : List Char → List (List Char)
  | [] => [[]]
  | c :: rest =>
      let r := splitDash rest
      if c = '-' then [] :: r
      else
        match r with
        | [] => [[c]]
        | h :: t => (c :: h) :: t

/-- Digit characters to a natural number; none when empty or non-digit. -/
def natOfDigits (cs : List Char) : Option Nat :=
  if cs ≠ [] ∧ cs.all Char.isDigit then
    some (cs.foldl (fun n c => n * 10 + (c.toNat - 48)) 0)
  else none

/-- ISO date text YYYY-MM-DD to a (year, month, day) triple; none on failure. -/
def parseDate (s : String) : Option (Nat × Nat × Nat) :=
  match splitDash s.toList with
  | [ys, ms, ds] =>
      match natOfDigits ys, natOfDigits ms, natOfDigits ds with
      | some y, some m, some d =>
          if 1 ≤ m ∧ m ≤ 12 ∧ 1 ≤ d ∧ d ≤ 31 then some (y, m, d) else none
      | _, _, _ => none
  | _ => none

/-- Elementwise pd.to_datetime with coerce semantics: a parseable string
becomes a date, a date stays, everything else becomes null. -/
def coerceVal : Val → Val
  | Val.str s =>
      match parseDate s with
      | some (y, m, d) => Val.date y m d
      | none => Val.null
  | Val.date y m d => Val.date y m d
  | _ => Val.null

/-- Elementwise multiplication of two cells with null propagation. -/
def vmul : Val → Val → Val
  | Val.num a, Val.num b => Val.num (a * b)
  | _, _ => Val.null

/-- Elementwise 1 - x with null propagation. -/
def voneSub : Val → Val
  | Val.num a => Val.num (1 - a)
  | _ => Val.null

/-- Revenue column from the quantity, price and discount columns:
quantity * price * (1 - discount), elementwise. -/
def revSeries (qs ps ds : List Val) : List Val :=
  List.zipWith vmul (List.zipWith vmul qs ps) (ds.map voneSub)

/-- Ingestion phase of src/eda_app.py, lines 23 and 26: coerce order_date,
then derive revenue. Each bracket access raises (errors) when its column is
absent, in the left-to-right order of the Python source. -/
def ingest (df : DataFrame) : Except String DataFrame :=
  match getCol df "order_date" with
  | Except.error e => Except.error e
  | Except.ok od =>
    let df1 := setCol df "order_date" (od.map coerceVal)
    match getCol df1 "quantity" with
    | Except.error e => Except.error e
    | Except.ok qs =>
      match getCol df1 "price" with
      | Except.error e => Except.error e
      | Except.ok ps =>
        match getCol df1 "discount" with
        | Except.error e => Except.error e
        | Except.ok ds => Except.ok (setCol df1 "revenue" (revSeries qs ps ds))

/-- Bracket selection df[cs] of several columns at once; raises on the
first absent column. -/
def selectCols (df : DataFrame) : List String → Except String DataFrame
  | [] => Except.ok []
  | c :: cs =>
      match getCol df c, selectCols df cs with
      | Except.ok v, Except.ok rest => Except.ok ((c, v) :: rest)
      | Except.error e, _ => Except.error e
      | _, Except.error e => Except.error e

/-- Numeric-column selection feeding the correlation heatmap, lines
114-115 of src/eda_app.py. -/
def corrSelect (df : DataFrame) : Except String DataFrame :=
  selectCols df ["quantity", "price", "discount", "revenue"]

/-- Row of an ingested dataset carrying the canonical schema; a none field
is a null cell (NaN / NaT). The order_date field holds the already coerced
(year, month, day) value. -/
structure Row where
  order_id : Option String
  order_date : Option (Nat × Nat × Nat)
  product_id : Option String
  category : Option String
  customer_id : Option String
  region : Option String
  payment_method : Option String
  quantity : Option ℚ
  price : Option ℚ
  discount : Option ℚ
deriving DecidableEq, Repr

/-- Derived revenue cell of a row, quantity * price * (1 - discount) with
null propagation, as assigned on line 26 of src/eda_app.py. -/
def Row.revenue (r : Row) : Option ℚ :=
  match r.quantity, r.price, r.discount with
  | some q, some p, some d => some (q * p * (1 - d))
  | _, _, _ => none

/-- Calendar-month key of a row, dt.to_period of order_date: null when the
date is null. -/
def Row.month (r : Row) : Option (Nat × Nat) :=
  r.order_date.map (fun t => (t.1, t.2.1))

/-- Calendar-day key of a row, dt.date of order_date. -/
def Row.day (r : Row) : Option (Nat × Nat × Nat) :=
  r.order_date

section Groupby

variable {κ β : Type} [DecidableEq κ]

/-- Distinct non-null keys occurring in the rows, in order of first
appearance. Pandas groupby drops rows whose key is null. -/
def keysOf (key : Row → Option κ) (rows : List Row) : List κ :=
  (rows.filterMap key).dedup

/-- Rows of the group of key k. -/
def groupRows (key : Row → Option κ) (k : κ) (rows : List Row) : List Row :=
  rows.filter (fun r => key r = some k)

/-- Pandas df.groupby(key).agg with sort=True: one entry per distinct
non-null key, keys sorted ascending by the order le, each aggregated over
the rows of its group. -/
def groupbyAgg (le : κ → κ → Prop) [DecidableRel le] (key : Row → Option κ)
    (agg : List Row → β) (rows : List Row) : List (κ × β) :=
  ((keysOf key rows).insertionSort le).map
    (fun k => (k, agg (groupRows key k rows)))

end Groupby

/-- Sum of a revenue series: pandas sum skips null cells and is 0 on the
empty series. -/
def sumRevenue (rows : List Row) : ℚ :=
  (rows.filterMap Row.revenue).sum

/-- Count of distinct non-null order identifiers, pandas nunique. -/
def nuniqueOrders (rows : List Row) : Nat :=
  (rows.filterMap Row.order_id).dedup.length

/-- Count of rows in a group. -/
def countRows (rows : List Row) : Nat :=
  rows.length

/-- KPI total_revenue, line 41: sum of the revenue column. -/
def total_revenue (rows : List Row) : ℚ :=
  sumRevenue rows

/-- KPI total_orders, line 42: distinct order_id count. -/
def total_orders (rows : List Row) : Nat :=
  nuniqueOrders rows

/-- KPI avg_order_value, line 43: total revenue over total orders, 0 when
there are no orders. -/
def avg_order_value (rows : List Row) : ℚ :=
  if total_orders rows > 0 then total_revenue rows / (total_orders rows : ℚ)
  else 0

/-- Ascending order on month keys (year, then month), the order in which
pandas sorts period group keys. -/
def monthLe (a b : Nat × Nat) : Prop :=
  a.1 < b.1 ∨ (a.1 = b.1 ∧ a.2 ≤ b.2)

instance : DecidableRel monthLe := fun a b => by
  unfold monthLe; infer_instance

instance : IsTotal (Nat × Nat) monthLe := by
  constructor; intro a b; unfold monthLe; omega

instance : IsTrans (Nat × Nat) monthLe := by
  constructor; intro a b c; unfold monthLe; omega

/-- Ascending order on day keys (year, month, day). -/
def dayLe (a b : Nat × Nat × Nat) : Prop :=
  a.1 < b.1 ∨ (a.1 = b.1 ∧ (a.2.1 < b.2.1 ∨ (a.2.1 = b.2.1 ∧ a.2.2 ≤ b.2.2)))

instance : DecidableRel dayLe := fun a b => by
  unfold dayLe; infer_instance

instance : IsTotal (Nat × Nat × Nat) dayLe := by
  constructor; intro a b; unfold dayLe; omega

instance : IsTrans (Nat × Nat × Nat) dayLe := by
  constructor; intro a b c; unfold dayLe; omega

/-- Lexicographic code-point comparison of character lists. -/
def strLeb : List Char → List Char → Bool
  | [], _ => true
  | _ :: _, [] => false
  | a :: as, b :: bs =>
      if a.toNat < b.toNat then true
      else if b.toNat < a.toNat then false
      else strLeb as bs

/-- Ascending lexicographic order on string labels, the order of pandas
groupby keys. -/
def strLe (a b : String) : Prop :=
  strLeb a.data b.data = true

instance : DecidableRel strLe := fun a b => by
  unfold strLe; infer_instance

/-- Descending order by aggregated value, the order of
sort_values(ascending=False), used to state sortedness of the ranked
views. -/
def valDesc {κ : Type} (a b : κ × ℚ) : Prop :=
  b.2 ≤ a.2

instance {κ : Type} : DecidableRel (valDesc (κ := κ)) := fun a b => by
  unfold valDesc; infer_instance

instance {κ : Type} : IsTotal (κ × ℚ) valDesc := by
  constructor; intro a b; exact le_total b.2 a.2

instance {κ : Type} : IsTrans (κ × ℚ) valDesc := by
  constructor; intro a b c hab hbc; exact le_trans hbc hab

/-- Ascending order by aggregated value. -/
def valAsc {κ : Type} (a b : κ × ℚ) : Prop :=
  a.2 ≤ b.2

instance {κ : Type} : DecidableRel (valAsc (κ := κ)) := fun a b => by
  unfold valAsc; infer_instance

instance {κ : Type} : IsTotal (κ × ℚ) valAsc := by
  constructor; intro a b; exact le_total a.2 b.2

instance {κ : Type} : IsTrans (κ × ℚ) valAsc := by
  constructor; intro a b c hab hbc; exact le_trans hab hbc

/-- Pandas sort_values(ascending=False): nargsort computes the ascending
order and reverses it, so equal values come out in the reverse of the
input order, not stably. -/
def sortValuesDesc {κ : Type} (l : List (κ × ℚ)) : List (κ × ℚ) :=
  (l.insertionSort valAsc).reverse

/-- Revenue trend at monthly granularity, line 59: revenue summed per
month period of order_date. Groupby sorts the periods chronologically. -/
def revenue_trend_M (rows : List Row) : List ((Nat × Nat) × ℚ) :=
  groupbyAgg monthLe Row.month sumRevenue rows

/-- Revenue trend at daily granularity, line 57. -/
def revenue_trend_D (rows : List Row) : List ((Nat × Nat × Nat) × ℚ) :=
  groupbyAgg dayLe Row.day sumRevenue rows

/-- Top products view, lines 73-74: revenue summed per product id, sorted
descending by revenue, first top_n entries. -/
def top_products (rows : List Row) (n : Nat) : List (String × ℚ) :=
  (sortValuesDesc (groupbyAgg strLe Row.product_id sumRevenue rows)).take n

/-- Revenue by category view, lines 81-82: revenue summed per category,
sorted descending by revenue. -/
def top_categories (rows : List Row) : List (String × ℚ) :=
  sortValuesDesc (groupbyAgg strLe Row.category sumRevenue rows)

/-- Payment method share, line 92: row count per payment method value,
sorted descending by count as value_counts does. -/
def payment_counts (rows : List Row) : List (String × ℚ) :=
  sortValuesDesc (groupbyAgg strLe Row.payment_method (fun g => (countRows g : ℚ)) rows)

/-- Revenue by region view, line 103: revenue summed per region. -/
def region_sales (rows : List Row) : List (String × ℚ) :=
  groupbyAgg strLe Row.region sumRevenue rows

/-- Top customers view, lines 135-136: revenue summed per customer id,
sorted descending, first 10 entries. -/
def top_customers (rows : List Row) : List (String × ℚ) :=
  (sortValuesDesc (groupbyAgg strLe Row.customer_id sumRevenue rows)).take 10

/-- Monthly orders view before formatting, lines 162-163: distinct order
ids counted per month period of order_date, periods ascending. -/
def monthly_orders_P (rows : List Row) : List ((Nat × Nat) × Nat) :=
  groupbyAgg monthLe Row.month nuniqueOrders rows

/-- Decimal digit as a character. -/
def digitChar (n : Nat) : Char :=
  Char.ofNat (48 + n)

/-- Month period rendered as text, astype(str) on line 164: the sortable
zero-padded key YYYY-MM. -/
def fmtMonth (p : Nat × Nat) : String :=
  String.mk [digitChar (p.1 / 1000 % 10), digitChar (p.1 / 100 % 10),
    digitChar (p.1 / 10 % 10), digitChar (p.1 % 10), '-',
    digitChar (p.2 / 10 % 10), digitChar (p.2 % 10)]

/-- Monthly orders view as rendered, line 164: the month key as text. -/
def monthly_orders (rows : List Row) : List (String × Nat) :=
  (monthly_orders_P rows).map (fun p => (fmtMonth p.1, p.2))

/-- Row with every cell null, base for concrete datasets. -/
def row0 : Row :=
  ⟨none, none, none, none, none, none, none, none, none, none⟩

/-- Orders by region view, line 184: distinct order ids counted per region
label, labels ascending. -/
def region_orders (rows : List Row) : List (String × Nat) :=
  groupbyAgg strLe Row.region nuniqueOrders rows

/-- Sum of the value entries of a keyed view. -/
def sumView {κ : Type} (l : List (κ × ℚ)) : ℚ :=
  (l.map Prod.snd).sum

/-- Dataset with the discount column absent. -/
def dfNoDiscount : DataFrame :=
  [("order_id", [Val.str "o1"]), ("order_date", [Val.str "2024-01-15"]),
   ("quantity", [Val.num 1]), ("price", [Val.num 100])]

/-- Dataset with the quantity column absent. -/
def dfNoQuantity : DataFrame :=
  [("order_date", [Val.str "2024-02-01"]), ("price", [Val.num 5])]

/-- Complete one-row dataset: quantity 2, price 10, discount 0. -/
def dfC2 : DataFrame :=
  [("order_date", [Val.str "2024-01-15"]), ("quantity", [Val.num 2]),
   ("price", [Val.num 10]), ("discount", [Val.num 0])]

/-- Ingestion result of dfC2. -/
def dfC2out : DataFrame :=
  setCol (setCol dfC2 "order_date" ([Val.str "2024-01-15"].map coerceVal))
    "revenue" (revSeries [Val.num 2] [Val.num 10] [Val.num 0])

/-- Dataset whose middle order_date cell is unparseable text. -/
def dfC7 : DataFrame :=
  [("order_date", [Val.str "2024-01-15", Val.str "not a date", Val.null]),
   ("quantity", [Val.num 1, Val.num 1, Val.num 1]),
   ("price", [Val.num 2, Val.num 2, Val.num 2]),
   ("discount", [Val.num 0, Val.num 0, Val.num 0])]

/-- Ingestion result of dfC7. -/
def dfC7out : DataFrame :=
  setCol (setCol dfC7 "order_date"
      ([Val.str "2024-01-15", Val.str "not a date", Val.null].map coerceVal))
    "revenue" (revSeries [Val.num 1, Val.num 1, Val.num 1]
      [Val.num 2, Val.num 2, Val.num 2] [Val.num 0, Val.num 0, Val.num 0])

/-- Three orders of 100 each: total revenue 300 over 3 distinct order ids. -/
def exC3 : List Row :=
  [{ row0 with
      order_id := some "o1", quantity := some 1, price := some 100,
      discount := some 0 },
   { row0 with
      order_id := some "o2", quantity := some 1, price := some 100,
      discount := some 0 },
   { row0 with
      order_id := some "o3", quantity := some 1, price := some 100,
      discount := some 0 }]

/-- Two rows with category and region everywhere non-null. -/
def exC4 : List Row :=
  [{ row0 with
      order_id := some "o1", category := some "Books",
      region := some "EU", quantity := some 1, price := some 40,
      discount := some 0 },
   { row0 with
      order_id := some "o2", category := some "Toys",
      region := some "US", quantity := some 1, price := some 60,
      discount := some 0 }]

/-- One row with revenue 100, a non-null region and a null category. -/
def exC4bad : List Row :=
  [{ row0 with
      order_id := some "o1", region := some "EU",
      quantity := some 1, price := some 100, discount := some 0 }]

/-- Products A, B, C, D with revenues 100, 50, 75, 10. -/
def exC5 : List Row :=
  [{ row0 with
      order_id := some "o1", product_id := some "A",
      quantity := some 1, price := some 100, discount := some 0 },
   { row0 with
      order_id := some "o2", product_id := some "B",
      quantity := some 1, price := some 50, discount := some 0 },
   { row0 with
      order_id := some "o3", product_id := some "C",
      quantity := some 1, price := some 75, discount := some 0 },
   { row0 with
      order_id := some "o4", product_id := some "D",
      quantity := some 1, price := some 10, discount := some 0 }]

/-- Two products A and B that tie at revenue 50. -/
def exC5tie : List Row :=
  [{ row0 with
      order_id := some "o1", product_id := some "A",
      quantity := some 1, price := some 50, discount := some 0 },
   { row0 with
      order_id := some "o2", product_id := some "B",
      quantity := some 1, price := some 50, discount := some 0 }]

/-- One order from the United Kingdom and one from France. -/
def exC6 : List Row :=
  [{ row0 with
      order_id := some "o1", region := some "United Kingdom" },
   { row0 with
      order_id := some "o2", region := some "France" }]

/-- Two orders dated 2024-01-15 and 2024-01-31, one calendar month. -/
def exC9 : List Row :=
  [{ row0 with
      order_id := some "o1", order_date := some (2024, 1, 15) },
   { row0 with
      order_id := some "o2", order_date := some (2024, 1, 31) }]

/-- Product A sold twice, once with a null (unparsed) order date. -/
def exC10 : List Row :=
  [{ row0 with
      order_id := some "o1", product_id := some "A",
      order_date := some (2024, 1, 15), quantity := some 1,
      price := some 100, discount := some 0 },
   { row0 with
      order_id := some "o2", product_id := some "A",
      order_date := none, quantity := some 1, price := some 50,
      discount := some 0 }]

section Lemmas

variable {κ β : Type} [DecidableEq κ]

theorem strLeb_total : ∀ as bs, strLeb as bs = true ∨ strLeb bs as = true := by
  intro as
  induction as with
  | nil => intro bs; exact Or.inl rfl
  | cons a as ih =>
    intro bs
    cases bs with
    | nil => exact Or.inr rfl
    | cons b bs =>
      by_cases hab : a.toNat < b.toNat
      · exact Or.inl (by simp [strLeb, hab])
      · by_cases hba : b.toNat < a.toNat
        · exact Or.inr (by simp [strLeb, hba])
        · rcases ih bs with h | h
          · exact Or.inl (by simp [strLeb, hab, hba, h])
          · exact Or.inr (by simp [strLeb, hab, hba, h])

theorem strLeb_trans : ∀ as bs cs, strLeb as bs = true → strLeb bs cs = true →
    strLeb as cs = true := by
  intro as
  induction as with
  | nil => intro bs cs _ _; rfl
  | cons a as ih =>
    intro bs cs h1 h2
    cases bs with
    | nil => simp [strLeb] at h1
    | cons b bs =>
      cases cs with
      | nil => simp [strLeb] at h2
      | cons c cs =>
        by_cases hab : a.toNat < b.toNat
        · by_cases hbc : b.toNat < c.toNat
          · simp [strLeb, show a.toNat < c.toNat from by omega]
          · by_cases hcb : c.toNat < b.toNat
            · simp [strLeb, hbc, hcb] at h2
            · simp [strLeb, show a.toNat < c.toNat from by omega]
        · by_cases hba : b.toNat < a.toNat
          · simp [strLeb, hab, hba] at h1
          · by_cases hbc : b.toNat < c.toNat
            · simp [strLeb, show a.toNat < c.toNat from by omega]
            · by_cases hcb : c.toNat < b.toNat
              · simp [strLeb, hbc, hcb] at h2
              · have h1' : strLeb as bs = true := by
                  simpa [strLeb, hab, hba] using h1
                have h2' : strLeb bs cs = true := by
                  simpa [strLeb, hbc, hcb] using h2
                simpa [strLeb, show ¬ a.toNat < c.toNat from by omega,
                  show ¬ c.toNat < a.toNat from by omega] using ih bs cs h1' h2'

instance : IsTotal String strLe := by
  constructor; intro a b; exact strLeb_total a.data b.data

instance : IsTrans String strLe := by
  constructor; intro a b c; exact strLeb_trans a.data b.data c.data

theorem lookup_setCol_self (df : DataFrame) (c : String) (v : List Val) :
    (setCol df c v).lookup c = some v := by
  induction df with
  | nil => simp [setCol, List.lookup]
  | cons head tail ih =>
    obtain ⟨c', v'⟩ := head
    by_cases h : c' = c
    · subst h; simp [setCol, List.lookup]
    · have hb : (c == c') = false := by
        rw [beq_eq_false_iff_ne]; exact fun e => h e.symm
      simp [setCol, h, List.lookup, hb, ih]

theorem lookup_setCol_ne (df : DataFrame) (c c' : String) (v : List Val)
    (h : c' ≠ c) : (setCol df c v).lookup c' = df.lookup c' := by
  induction df with
  | nil =>
    have hb : (c' == c) = false := beq_eq_false_iff_ne.mpr h
    simp [setCol, List.lookup, hb]
  | cons head tail ih =>
    obtain ⟨a, b⟩ := head
    by_cases ha : a = c
    · subst ha
      have hb : (c' == a) = false := beq_eq_false_iff_ne.mpr h
      simp [setCol, List.lookup, hb]
    · by_cases h2 : c' = a
      · subst h2; simp [setCol, ha, List.lookup]
      · have hb : (c' == a) = false := beq_eq_false_iff_ne.mpr h2
        simp [setCol, ha, List.lookup, hb, ih]

theorem getCol_setCol_self (df : DataFrame) (c : String) (v : List Val) :
    getCol (setCol df c v) c = Except.ok v := by
  simp [getCol, lookup_setCol_self]

theorem getCol_setCol_ne (df : DataFrame) (c c' : String) (v : List Val)
    (h : c' ≠ c) : getCol (setCol df c v) c' = getCol df c' := by
  simp [getCol, lookup_setCol_ne df c c' v h]

theorem hasCol_setCol_ne (df : DataFrame) (c c' : String) (v : List Val)
    (h : c' ≠ c) : hasCol (setCol df c v) c' = hasCol df c' := by
  simp [hasCol, lookup_setCol_ne df c c' v h]

theorem getCol_error_name {df : DataFrame} {c e : String}
    (h : getCol df c = Except.error e) : e = c ∧ hasCol df c = false := by
  unfold getCol at h
  unfold hasCol
  cases hl : df.lookup c with
  | none =>
    rw [hl] at h
    exact ⟨(Except.error.inj h).symm, by simp [hl]⟩
  | some v => rw [hl] at h; cases h

theorem hasCol_false_getCol {df : DataFrame} {c : String}
    (h : hasCol df c = false) : getCol df c = Except.error c := by
  unfold hasCol at h
  unfold getCol
  cases hl : df.lookup c with
  | none => rfl
  | some v => rw [hl] at h; simp at h

theorem hasCol_getCol_ok {df : DataFrame} {c : String}
    (h : hasCol df c = true) : ∃ v, getCol df c = Except.ok v := by
  unfold hasCol at h
  unfold getCol
  cases hl : df.lookup c with
  | none => rw [hl] at h; simp at h
  | some v => exact ⟨v, rfl⟩

theorem getCol_ok_hasCol {df : DataFrame} {c : String} {v : List Val}
    (h : getCol df c = Except.ok v) : hasCol df c = true := by
  unfold getCol at h
  unfold hasCol
  cases hl : df.lookup c with
  | none => rw [hl] at h; cases h
  | some w => simp [hl]

theorem ingest_ok_elim {df df1 : DataFrame} (hok : ingest df = Except.ok df1) :
    ∃ os qs ps ds,
      getCol df "order_date" = Except.ok os
      ∧ getCol df "quantity" = Except.ok qs
      ∧ getCol df "price" = Except.ok ps
      ∧ getCol df "discount" = Except.ok ds
      ∧ df1 = setCol (setCol df "order_date" (os.map coerceVal)) "revenue"
          (revSeries qs ps ds) := by
  unfold ingest at hok
  cases ho : getCol df "order_date" with
  | error e => rw [ho] at hok; simp at hok
  | ok os =>
    rw [ho] at hok
    simp only [] at hok
    cases hq : getCol (setCol df "order_date" (os.map coerceVal)) "quantity" with
    | error e => rw [hq] at hok; simp at hok
    | ok qs =>
      rw [hq] at hok
      cases hp : getCol (setCol df "order_date" (os.map coerceVal)) "price" with
      | error e => rw [hp] at hok; simp at hok
      | ok ps =>
        rw [hp] at hok
        cases hd : getCol (setCol df "order_date" (os.map coerceVal)) "discount" with
        | error e => rw [hd] at hok; simp at hok
        | ok ds =>
          rw [hd] at hok
          refine ⟨os, qs, ps, ds, rfl, ?_, ?_, ?_, (Except.ok.inj hok).symm⟩
          · rw [← getCol_setCol_ne df "order_date" "quantity" (os.map coerceVal) (by decide)]
            exact hq
          · rw [← getCol_setCol_ne df "order_date" "price" (os.map coerceVal) (by decide)]
            exact hp
          · rw [← getCol_setCol_ne df "order_date" "discount" (os.map coerceVal) (by decide)]
            exact hd

theorem ingest_missing_error {df : DataFrame}
    (hod : hasCol df "order_date" = true)
    (hmiss : hasCol df "quantity" = false ∨ hasCol df "price" = false
      ∨ hasCol df "discount" = false) :
    ∃ c, ingest df = Except.error c ∧ hasCol df c = false := by
  obtain ⟨os, ho⟩ := hasCol_getCol_ok hod
  unfold ingest
  rw [ho]
  simp only []
  cases hq : getCol (setCol df "order_date" (os.map coerceVal)) "quantity" with
  | error e =>
    obtain ⟨he, hn⟩ := getCol_error_name hq
    subst he
    refine ⟨"quantity", rfl, ?_⟩
    rw [← hasCol_setCol_ne df "order_date" "quantity" (os.map coerceVal) (by decide)]
    exact hn
  | ok qs =>
    cases hp : getCol (setCol df "order_date" (os.map coerceVal)) "price" with
    | error e =>
      obtain ⟨he, hn⟩ := getCol_error_name hp
      subst he
      refine ⟨"price", rfl, ?_⟩
      rw [← hasCol_setCol_ne df "order_date" "price" (os.map coerceVal) (by decide)]
      exact hn
    | ok ps =>
      cases hd : getCol (setCol df "order_date" (os.map coerceVal)) "discount" with
      | error e =>
        obtain ⟨he, hn⟩ := getCol_error_name hd
        subst he
        refine ⟨"discount", rfl, ?_⟩
        rw [← hasCol_setCol_ne df "order_date" "discount" (os.map coerceVal) (by decide)]
        exact hn
      | ok ds =>
        exfalso
        have h1 : hasCol df "quantity" = true := by
          rw [← hasCol_setCol_ne df "order_date" "quantity" (os.map coerceVal) (by decide)]
          exact getCol_ok_hasCol hq
        have h2 : hasCol df "price" = true := by
          rw [← hasCol_setCol_ne df "order_date" "price" (os.map coerceVal) (by decide)]
          exact getCol_ok_hasCol hp
        have h3 : hasCol df "discount" = true := by
          rw [← hasCol_setCol_ne df "order_date" "discount" (os.map coerceVal) (by decide)]
          exact getCol_ok_hasCol hd
        rcases hmiss with h | h | h <;> simp [h1, h2, h3] at h

theorem corr_always_after_ingest {df df1 : DataFrame}
    (hok : ingest df = Except.ok df1) :
    ∃ sub, corrSelect df1 = Except.ok sub := by
  obtain ⟨os, qs, ps, ds, ho, hq, hp, hd, hdf⟩ := ingest_ok_elim hok
  subst hdf
  have t1 : getCol (setCol (setCol df "order_date" (os.map coerceVal)) "revenue"
      (revSeries qs ps ds)) "quantity" = Except.ok qs := by
    rw [getCol_setCol_ne _ _ _ _ (by decide), getCol_setCol_ne _ _ _ _ (by decide)]
    exact hq
  have t2 : getCol (setCol (setCol df "order_date" (os.map coerceVal)) "revenue"
      (revSeries qs ps ds)) "price" = Except.ok ps := by
    rw [getCol_setCol_ne _ _ _ _ (by decide), getCol_setCol_ne _ _ _ _ (by decide)]
    exact hp
  have t3 : getCol (setCol (setCol df "order_date" (os.map coerceVal)) "revenue"
      (revSeries qs ps ds)) "discount" = Except.ok ds := by
    rw [getCol_setCol_ne _ _ _ _ (by decide), getCol_setCol_ne _ _ _ _ (by decide)]
    exact hd
  have t4 : getCol (setCol (setCol df "order_date" (os.map coerceVal)) "revenue"
      (revSeries qs ps ds)) "revenue" = Except.ok (revSeries qs ps ds) :=
    getCol_setCol_self _ _ _
  have hsel : corrSelect (setCol (setCol df "order_date" (os.map coerceVal))
      "revenue" (revSeries qs ps ds))
      = Except.ok [("quantity", qs), ("price", ps), ("discount", ds),
          ("revenue", revSeries qs ps ds)] := by
    simp [corrSelect, selectCols, t1, t2, t3, t4]
  exact ⟨_, hsel⟩

theorem perm_sortValuesDesc {κ : Type} (l : List (κ × ℚ)) :
    List.Perm (sortValuesDesc l) l := by
  unfold sortValuesDesc
  exact (List.reverse_perm _).trans (List.perm_insertionSort valAsc l)

theorem length_sortValuesDesc {κ : Type} (l : List (κ × ℚ)) :
    (sortValuesDesc l).length = l.length :=
  (perm_sortValuesDesc l).length_eq

theorem mem_sortValuesDesc {κ : Type} {l : List (κ × ℚ)} {x : κ × ℚ}
    (h : x ∈ sortValuesDesc l) : x ∈ l :=
  (perm_sortValuesDesc l).mem_iff.mp h

theorem sorted_sortValuesDesc {κ : Type} (l : List (κ × ℚ)) :
    List.Sorted valDesc (sortValuesDesc l) := by
  unfold sortValuesDesc
  rw [List.Sorted, List.pairwise_reverse]
  exact List.sorted_insertionSort valAsc l

theorem sumRevenue_cons (r : Row) (l : List Row) :
    sumRevenue (r :: l) = (Row.revenue r).getD 0 + sumRevenue l := by
  unfold sumRevenue
  cases h : Row.revenue r <;> simp [List.filterMap_cons, h]

theorem groupRows_cons (key : Row → Option κ) (k : κ) (r : Row) (l : List Row) :
    groupRows key k (r :: l) =
      if key r = some k then r :: groupRows key k l else groupRows key k l := by
  by_cases h : key r = some k <;> simp [groupRows, List.filter_cons, h]

theorem mem_keysOf {key : Row → Option κ} {rows : List Row} {k : κ} {r : Row}
    (hr : r ∈ rows) (hk : key r = some k) : k ∈ keysOf key rows := by
  unfold keysOf
  rw [List.mem_dedup]
  exact List.mem_filterMap.mpr ⟨r, hr, hk⟩

theorem sum_map_ite_single (ks : List κ) (k₀ : κ) (c : ℚ)
    (hn : ks.Nodup) (hm : k₀ ∈ ks) :
    (ks.map (fun k => if k = k₀ then c else 0)).sum = c := by
  induction ks with
  | nil => cases hm
  | cons a t ih =>
    rcases List.mem_cons.mp hm with h | h
    · subst h
      have hna : k₀ ∉ t := (List.nodup_cons.mp hn).1
      have hz : t.map (fun k => if k = k₀ then c else 0) = t.map (fun _ => (0 : ℚ)) :=
        List.map_congr_left fun x hx => by
          have : x ≠ k₀ := fun e => hna (e ▸ hx)
          simp [this]
      simp [hz]
    · have hne : a ≠ k₀ := by
        rintro rfl
        exact (List.nodup_cons.mp hn).1 h
      simp [hne, ih (List.nodup_cons.mp hn).2 h]

theorem sum_groups_eq (key : Row → Option κ) (rows : List Row) (ks : List κ)
    (hn : ks.Nodup) (hcov : ∀ r ∈ rows, ∀ k, key r = some k → k ∈ ks) :
    (ks.map (fun k => sumRevenue (groupRows key k rows))).sum
      = sumRevenue (rows.filter (fun r => (key r).isSome)) := by
  induction rows with
  | nil => simp [groupRows, sumRevenue]
  | cons r rest ih =>
    have hcov' : ∀ x ∈ rest, ∀ k, key x = some k → k ∈ ks :=
      fun x hx => hcov x (List.mem_cons_of_mem _ hx)
    cases hk : key r with
    | none =>
      have hmap : ks.map (fun k => sumRevenue (groupRows key k (r :: rest)))
          = ks.map (fun k => sumRevenue (groupRows key k rest)) :=
        List.map_congr_left fun k _ => by
          rw [groupRows_cons, if_neg (by simp [hk])]
      rw [hmap, ih hcov', List.filter_cons]
      simp [hk]
    | some k₀ =>
      have hk₀ : k₀ ∈ ks := hcov r (List.mem_cons_self r rest) k₀ hk
      have hmap : ks.map (fun k => sumRevenue (groupRows key k (r :: rest)))
          = ks.map (fun k =>
              (if k = k₀ then (Row.revenue r).getD 0 else 0)
                + sumRevenue (groupRows key k rest)) :=
        List.map_congr_left fun k _ => by
          rw [groupRows_cons]
          by_cases hkk : k = k₀
          · subst hkk
            rw [if_pos (by rw [hk]), sumRevenue_cons, if_pos rfl]
          · have : ¬ key r = some k := by
              rw [hk]
              exact fun e => hkk (Option.some.inj e).symm
            rw [if_neg this, if_neg hkk, zero_add]
      rw [hmap, List.sum_map_add, sum_map_ite_single ks k₀ _ hn hk₀, ih hcov',
        List.filter_cons]
      simp [hk, sumRevenue_cons]

theorem sumView_groupbyAgg (le : κ → κ → Prop) [DecidableRel le]
    (key : Row → Option κ) (rows : List Row) :
    sumView (groupbyAgg le key sumRevenue rows)
      = sumRevenue (rows.filter (fun r => (key r).isSome)) := by
  unfold sumView groupbyAgg
  rw [List.map_map]
  have hperm : List.Perm ((keysOf key rows).insertionSort le) (keysOf key rows) :=
    List.perm_insertionSort le _
  have hsum := (hperm.map (fun k => sumRevenue (groupRows key k rows))).sum_eq
  have hfun : (Prod.snd ∘ fun k => (k, sumRevenue (groupRows key k rows)))
      = fun k => sumRevenue (groupRows key k rows) := rfl
  rw [hfun, hsum]
  exact sum_groups_eq key rows _ (List.nodup_dedup _)
    (fun r hr k hk => mem_keysOf hr hk)

theorem mem_groupbyAgg {le : κ → κ → Prop} [DecidableRel le]
    {key : Row → Option κ} {agg : List Row → β} {rows : List Row} {k : κ} {v : β}
    (h : (k, v) ∈ groupbyAgg le key agg rows) :
    v = agg (groupRows key k rows) := by
  unfold groupbyAgg at h
  rcases List.mem_map.mp h with ⟨k1, _, he⟩
  injection he with h1 h2
  subst h1
  exact h2.symm

theorem map_fst_groupbyAgg (le : κ → κ → Prop) [DecidableRel le]
    (key : Row → Option κ) (agg : List Row → β) (rows : List Row) :
    (groupbyAgg le key agg rows).map Prod.fst
      = (keysOf key rows).insertionSort le := by
  unfold groupbyAgg
  rw [List.map_map]
  have hfun : (Prod.fst ∘ fun k => (k, agg (groupRows key k rows)))
      = fun (k : κ) => k := rfl
  rw [hfun]
  exact List.map_id' _

theorem sorted_map_fst_groupbyAgg (le : κ → κ → Prop) [DecidableRel le]
    [IsTotal κ le] [IsTrans κ le]
    (key : Row → Option κ) (agg : List Row → β) (rows : List Row) :
    List.Sorted le ((groupbyAgg le key agg rows).map Prod.fst) := by
  rw [map_fst_groupbyAgg]
  exact List.sorted_insertionSort le _

theorem mem_map_fst_groupbyAgg {le : κ → κ → Prop} [DecidableRel le]
    {key : Row → Option κ} {rows : List Row} {k : κ} {r : Row}
    (agg : List Row → β) (hr : r ∈ rows) (hk : key r = some k) :
    k ∈ (groupbyAgg le key agg rows).map Prod.fst := by
  rw [map_fst_groupbyAgg, List.mem_insertionSort]
  exact mem_keysOf hr hk

theorem sumRevenue_filter_split (p : Row → Bool) (rows : List Row) :
    sumRevenue (rows.filter p) + sumRevenue (rows.filter (fun r => !(p r)))
      = sumRevenue rows := by
  induction rows with
  | nil => simp [sumRevenue]
  | cons r rest ih =>
    cases hp : p r <;> simp [List.filter_cons, hp, sumRevenue_cons] <;> linarith [ih]

end Lemmas

/-- Claim C1 counterexample: on a dataset whose discount column is absent,
ingestion raises a KeyError for discount at the revenue derivation (line 26)
instead of omitting the revenue field, so the engine does not degrade
gracefully and does raise. -/
theorem revenue_omitted_gracefully_c1_cex :
    ingest dfNoDiscount = Except.error "discount" := by rfl

/-- Claim C1 (amended): when order_date is present but one of quantity,
price, discount is absent, ingestion raises a KeyError naming an absent
column rather than omitting revenue; and after a successful ingestion the
correlation selection of the four numeric columns always succeeds, so the
fewer-than-2-numeric-columns omission case never occurs. -/
theorem missing_columns_raise_c1 (df : DataFrame) :
    (hasCol df "order_date" = true →
      (hasCol df "quantity" = false ∨ hasCol df "price" = false
        ∨ hasCol df "discount" = false) →
      ∃ c, ingest df = Except.error c ∧ hasCol df c = false)
    ∧ (∀ df1, ingest df = Except.ok df1 →
        ∃ sub, corrSelect df1 = Except.ok sub) := by
  constructor
  · intro hod hmiss
    exact ingest_missing_error hod hmiss
  · intro df1 hok
    exact corr_always_after_ingest hok

/-- Witness for the amended claim C1 at concrete datasets. -/
theorem missing_columns_raise_c1_witness :
    (∃ c, ingest dfNoQuantity = Except.error c
      ∧ hasCol dfNoQuantity c = false)
    ∧ (∃ sub, corrSelect dfC2out = Except.ok sub) :=
  ⟨(missing_columns_raise_c1 dfNoQuantity).1 rfl (Or.inl rfl),
   (missing_columns_raise_c1 dfC2).2 dfC2out rfl⟩

/-- Claim C2: for every row whose quantity, price and discount cells are
all numbers, the revenue cell computed at ingestion (line 26) equals
quantity * price * (1 - discount). -/
theorem revenue_formula_c2 (df df1 : DataFrame) (qs ps ds : List Val)
    (i : Nat) (q p d : ℚ)
    (hok : ingest df = Except.ok df1)
    (hq : getCol df "quantity" = Except.ok qs)
    (hp : getCol df "price" = Except.ok ps)
    (hd : getCol df "discount" = Except.ok ds)
    (hiq : qs[i]? = some (Val.num q))
    (hip : ps[i]? = some (Val.num p))
    (hid : ds[i]? = some (Val.num d)) :
    getCol df1 "revenue" = Except.ok (revSeries qs ps ds)
    ∧ (revSeries qs ps ds)[i]? = some (Val.num (q * p * (1 - d))) := by
  obtain ⟨os, qs1, ps1, ds1, ho1, hq1, hp1, hd1, hdf⟩ := ingest_ok_elim hok
  have hqq : qs1 = qs := Except.ok.inj (hq1.symm.trans hq)
  have hpp : ps1 = ps := Except.ok.inj (hp1.symm.trans hp)
  have hdd : ds1 = ds := Except.ok.inj (hd1.symm.trans hd)
  subst hqq hpp hdd hdf
  constructor
  · exact getCol_setCol_self _ _ _
  · simp [revSeries, List.getElem?_zipWith', List.getElem?_map, hiq, hip, hid,
      vmul, voneSub]

/-- Witness for claim C2: ingesting dfC2 yields revenue 2 * 10 * (1 - 0). -/
theorem revenue_formula_c2_witness :
    getCol dfC2out "revenue"
      = Except.ok (revSeries [Val.num 2] [Val.num 10] [Val.num 0])
    ∧ (revSeries [Val.num 2] [Val.num 10] [Val.num 0])[0]?
      = some (Val.num 20) := by
  have h := revenue_formula_c2 dfC2 dfC2out [Val.num 2] [Val.num 10]
    [Val.num 0] 0 2 10 0 rfl rfl rfl rfl rfl rfl rfl
  refine ⟨h.1, ?_⟩
  rw [h.2]
  norm_num

/-- Claim C7: order_date values are coerced elementwise; cells that fail
to parse as a date become null, and the column keeps one cell per row, so
no row is dropped. -/
theorem unparseable_dates_null_c7 (df df1 : DataFrame) (os : List Val)
    (hok : ingest df = Except.ok df1)
    (ho : getCol df "order_date" = Except.ok os) :
    getCol df1 "order_date" = Except.ok (os.map coerceVal)
    ∧ (os.map coerceVal).length = os.length
    ∧ ∀ (i : Nat) (s : String), os[i]? = some (Val.str s) → parseDate s = none →
        (os.map coerceVal)[i]? = some Val.null := by
  obtain ⟨os1, qs1, ps1, ds1, ho1, hq1, hp1, hd1, hdf⟩ := ingest_ok_elim hok
  have hoo : os1 = os := Except.ok.inj (ho1.symm.trans ho)
  subst hoo hdf
  refine ⟨?_, List.length_map _ _, ?_⟩
  · rw [getCol_setCol_ne _ _ _ _ (by decide)]
    exact getCol_setCol_self _ _ _
  · intro i s hi hparse
    rw [List.getElem?_map, hi]
    simp [coerceVal, hparse]

/-- Witness for claim C7 at dfC7: the unparseable middle cell becomes
null while the column keeps its three cells. -/
theorem unparseable_dates_null_c7_witness :
    getCol dfC7out "order_date"
      = Except.ok ([Val.str "2024-01-15", Val.str "not a date",
          Val.null].map coerceVal)
    ∧ ([Val.str "2024-01-15", Val.str "not a date", Val.null].map
        coerceVal).length = 3
    ∧ ([Val.str "2024-01-15", Val.str "not a date", Val.null].map
        coerceVal)[1]? = some Val.null := by
  have h := unparseable_dates_null_c7 dfC7 dfC7out
    [Val.str "2024-01-15", Val.str "not a date", Val.null] rfl rfl
  exact ⟨h.1, h.2.1, h.2.2 1 "not a date" rfl (by decide)⟩

theorem length_groupbyAgg {κ β : Type} [DecidableEq κ]
    (le : κ → κ → Prop) [DecidableRel le] (key : Row → Option κ)
    (agg : List Row → β) (rows : List Row) :
    (groupbyAgg le key agg rows).length = (keysOf key rows).length := by
  unfold groupbyAgg
  rw [List.length_map, List.length_insertionSort]

theorem sumView_perm {κ : Type} {l1 l2 : List (κ × ℚ)}
    (h : List.Perm l1 l2) : sumView l1 = sumView l2 := by
  unfold sumView
  exact (h.map Prod.snd).sum_eq

/-- Claim C3: the KPI view defines average order value as total revenue
over distinct order count, with the zero-orders case defined to 0 rather
than a division fault; on exC3, revenue 300 over 3 distinct orders gives
average 100. -/
theorem kpi_avg_order_value_c3 (rows : List Row) :
    (total_orders rows = 0 → avg_order_value rows = 0)
    ∧ (0 < total_orders rows →
        avg_order_value rows * (total_orders rows : ℚ) = total_revenue rows)
    ∧ total_revenue exC3 = 300 ∧ total_orders exC3 = 3
    ∧ avg_order_value exC3 = 100 := by
  refine ⟨?_, ?_, ?_, ?_, ?_⟩
  · intro h
    simp [avg_order_value, h]
  · intro h
    have hne : ((total_orders rows : ℚ)) ≠ 0 := by
      exact_mod_cast Nat.pos_iff_ne_zero.mp h
    rw [avg_order_value, if_pos h, div_mul_cancel₀ _ hne]
  · simp [exC3, total_revenue, sumRevenue, Row.revenue, row0]
    norm_num
  · simp [exC3, total_orders, nuniqueOrders, row0]
  · simp [exC3, avg_order_value, total_orders, nuniqueOrders, total_revenue,
      sumRevenue, Row.revenue, row0]
    norm_num

/-- Witness for claim C3: both KPI branches at concrete datasets. -/
theorem kpi_avg_order_value_c3_witness :
    avg_order_value [] = 0
    ∧ avg_order_value exC3 * (total_orders exC3 : ℚ) = total_revenue exC3 :=
  ⟨(kpi_avg_order_value_c3 []).1 rfl,
   (kpi_avg_order_value_c3 exC3).2.1 (by simp [exC3, total_orders,
     nuniqueOrders, row0])⟩

/-- Claim C4 counterexample: with the category column present but one
category cell null, groupby drops the null key, so the category view sums
to 0 while the region view and the total-revenue KPI are 100; the claimed
round-trip equality fails. -/
theorem category_region_roundtrip_c4_cex :
    sumView (top_categories exC4bad) = 0
    ∧ sumView (region_sales exC4bad) = 100
    ∧ total_revenue exC4bad = 100
    ∧ sumView (top_categories exC4bad) ≠ total_revenue exC4bad := by
  refine ⟨?_, ?_, ?_, ?_⟩ <;>
    simp [sumView, top_categories, region_sales, total_revenue, groupbyAgg,
      sortValuesDesc, keysOf, groupRows, sumRevenue, Row.revenue, exC4bad,
      row0, List.insertionSort, List.orderedInsert, strLe, valAsc]

/-- Claim C4 (amended): the round-trip holds under the extra condition
that every row has a non-null category and a non-null region: summing the
per-category view equals summing the per-region view equals the
total-revenue KPI. -/
theorem category_region_roundtrip_c4 (rows : List Row)
    (hc : ∀ r ∈ rows, (r.category).isSome)
    (hg : ∀ r ∈ rows, (r.region).isSome) :
    sumView (top_categories rows) = total_revenue rows
    ∧ sumView (region_sales rows) = total_revenue rows := by
  constructor
  · unfold top_categories
    rw [sumView_perm (perm_sortValuesDesc _),
      sumView_groupbyAgg strLe Row.category rows]
    unfold total_revenue
    congr 1
    exact List.filter_eq_self.mpr (fun r hr => by simpa using hc r hr)
  · unfold region_sales
    rw [sumView_groupbyAgg strLe Row.region rows]
    unfold total_revenue
    congr 1
    exact List.filter_eq_self.mpr (fun r hr => by simpa using hg r hr)

/-- Witness for the amended claim C4 at the all-non-null dataset exC4. -/
theorem category_region_roundtrip_c4_witness :
    sumView (top_categories exC4) = total_revenue exC4
    ∧ sumView (region_sales exC4) = total_revenue exC4 :=
  category_region_roundtrip_c4 exC4 (by decide) (by decide)

/-- Claim C5 counterexample: products A then B tie at revenue 50, and the
view lists B before A: sort_values(ascending=False) reverses the ascending
order, so equal values come out in the reverse of the aggregation order,
refuting the stable tie-break clause of the claim. -/
theorem top_products_stable_ties_c5_cex :
    top_products exC5tie 2 = [("B", 50), ("A", 50)]
    ∧ top_products exC5tie 2 ≠ [("A", 50), ("B", 50)] := by
  have heq : top_products exC5tie 2 = [("B", 50), ("A", 50)] := by
    simp [top_products, sortValuesDesc, groupbyAgg, keysOf, groupRows,
      sumRevenue, exC5tie, row0, Row.revenue, List.insertionSort,
      List.orderedInsert, strLe, strLeb, valAsc, List.dedup]
  refine ⟨heq, ?_⟩
  rw [heq]
  simp

/-- Claim C5 (amended): the top-N products view is sorted descending by
revenue, each entry carries the total revenue of its product id, its
length is N truncated to the number of distinct products, and on products
A(100), B(50), C(75), D(10) with N = 3 it is [A, C, B]; ties do not keep
the original aggregation order but its reverse, because the descending
sort is the reverse of an ascending one. -/
theorem top_products_ranking_c5 (rows : List Row) (n : Nat) :
    List.Sorted valDesc (top_products rows n)
    ∧ (∀ (p : String) (v : ℚ), (p, v) ∈ top_products rows n →
        v = sumRevenue (groupRows Row.product_id p rows))
    ∧ (top_products rows n).length
        = min n (keysOf Row.product_id rows).length
    ∧ top_products exC5 3 = [("A", 100), ("C", 75), ("B", 50)] := by
  refine ⟨?_, ?_, ?_, ?_⟩
  · unfold top_products
    exact List.Pairwise.sublist (List.take_sublist _ _)
      (sorted_sortValuesDesc _)
  · intro p v hm
    unfold top_products at hm
    have hm2 := List.mem_of_mem_take hm
    exact mem_groupbyAgg (mem_sortValuesDesc hm2)
  · unfold top_products
    rw [List.length_take, length_sortValuesDesc, length_groupbyAgg]
  · simp [top_products, sortValuesDesc, groupbyAgg, keysOf, groupRows,
      sumRevenue, exC5, row0, Row.revenue, List.insertionSort,
      List.orderedInsert, strLe, strLeb, valAsc, List.dedup]
    norm_num

/-- Witness for claim C5: the head entry of the concrete view carries the
total revenue of product A. -/
theorem top_products_ranking_c5_witness :
    (100 : ℚ) = sumRevenue (groupRows Row.product_id "A" exC5) := by
  have h := top_products_ranking_c5 exC5 3
  exact h.2.1 "A" 100 (by rw [h.2.2.2]; simp)

/-- Claim C6 counterexample: the orders-by-region view of a dataset with
rows for the United Kingdom and France contains both labels: the code at
line 184 of src/eda_app.py has no United-Kingdom exclusion, counts
distinct order ids rather than rows, and sorts by label. -/
theorem region_orders_uk_c6_cex :
    region_orders exC6 = [("France", 1), ("United Kingdom", 1)] := by
  decide

/-- Claim C6 (amended): the orders-by-region view has one entry per
distinct non-null region label, ordered ascending by label (not by
count), counting distinct order identifiers (not rows), and excludes no
label: every region occurring in the dataset appears, the literal label
United Kingdom included. -/
theorem region_orders_spec_c6 (rows : List Row) :
    List.Sorted strLe ((region_orders rows).map Prod.fst)
    ∧ (∀ (k : String) (c : Nat), (k, c) ∈ region_orders rows →
        c = nuniqueOrders (groupRows Row.region k rows))
    ∧ (∀ r ∈ rows, ∀ (k : String), r.region = some k →
        k ∈ (region_orders rows).map Prod.fst) :=
  ⟨sorted_map_fst_groupbyAgg strLe Row.region nuniqueOrders rows,
   fun _ _ hm => mem_groupbyAgg hm,
   fun _ hr _ hk => mem_map_fst_groupbyAgg nuniqueOrders hr hk⟩

/-- Witness for the amended claim C6: the United Kingdom label appears in
the concrete view. -/
theorem region_orders_spec_c6_witness :
    "United Kingdom" ∈ (region_orders exC6).map Prod.fst :=
  (region_orders_spec_c6 exC6).2.2
    { row0 with order_id := some "o1", region := some "United Kingdom" }
    (by simp [exC6]) "United Kingdom" rfl

/-- Claim C8: on the zero-row dataset every view of the catalogue is
empty and the KPIs report total revenue 0, total orders 0 and average
order value 0, with no failure. -/
theorem empty_dataset_c8 (n : Nat) :
    total_revenue [] = 0 ∧ total_orders [] = 0 ∧ avg_order_value [] = 0
    ∧ revenue_trend_M [] = [] ∧ revenue_trend_D [] = []
    ∧ top_products [] n = [] ∧ top_categories [] = []
    ∧ payment_counts [] = [] ∧ region_sales [] = []
    ∧ top_customers [] = [] ∧ monthly_orders [] = []
    ∧ region_orders [] = [] := by
  refine ⟨rfl, rfl, rfl, rfl, rfl, ?_, rfl, rfl, rfl, rfl, rfl, rfl⟩
  simp [top_products, sortValuesDesc, groupbyAgg, keysOf, List.insertionSort]

/-- Claim C9: every dated row lands in the bucket of its calendar month,
buckets count distinct order identifiers and are listed in ascending
chronological order; the rows dated 2024-01-15 and 2024-01-31 share the
formatted bucket 2024-01 with 2 distinct orders. -/
theorem monthly_orders_buckets_c9 (rows : List Row) :
    List.Sorted monthLe ((monthly_orders_P rows).map Prod.fst)
    ∧ (∀ (k : Nat × Nat) (c : Nat), (k, c) ∈ monthly_orders_P rows →
        c = nuniqueOrders (groupRows Row.month k rows))
    ∧ (∀ r ∈ rows, ∀ (y m d : Nat), r.order_date = some (y, m, d) →
        (y, m) ∈ (monthly_orders_P rows).map Prod.fst)
    ∧ monthly_orders exC9 = [("2024-01", 2)] := by
  refine ⟨sorted_map_fst_groupbyAgg monthLe Row.month nuniqueOrders rows,
    fun _ _ hm => mem_groupbyAgg hm, ?_, by decide⟩
  intro r hr y m d hk
  exact mem_map_fst_groupbyAgg nuniqueOrders hr
    (by simp [Row.month, hk])

/-- Witness for claim C9: the January 2024 bucket exists for exC9. -/
theorem monthly_orders_buckets_c9_witness :
    (2024, 1) ∈ (monthly_orders_P exC9).map Prod.fst :=
  (monthly_orders_buckets_c9 exC9).2.2.1
    { row0 with order_id := some "o1", order_date := some (2024, 1, 15) }
    (by simp [exC9]) 2024 1 15 rfl

/-- Claim C10: rows whose order date is null are dropped from the monthly
revenue trend (their group key is dropped) while they still count in the
total-revenue KPI and inside every per-product revenue group; on exC10 the
trend sums to 100 yet the KPI is 150 and product A totals 150. -/
theorem null_date_rows_c10 (rows : List Row) :
    sumView (revenue_trend_M rows)
        = sumRevenue (rows.filter (fun r => (r.order_date).isSome))
    ∧ total_revenue rows = sumView (revenue_trend_M rows)
        + sumRevenue (rows.filter (fun r => r.order_date = none))
    ∧ (∀ (k : Nat × Nat) (c : Nat), (k, c) ∈ monthly_orders_P rows →
        c = nuniqueOrders (groupRows Row.month k rows))
    ∧ (∀ (p : String) (v : ℚ), (p, v) ∈ top_products rows 10 →
        v = sumRevenue (groupRows Row.product_id p rows))
    ∧ sumView (revenue_trend_M exC10) = 100
    ∧ total_revenue exC10 = 150
    ∧ top_products exC10 10 = [("A", 150)]
    ∧ sumView (revenue_trend_M exC10) < total_revenue exC10 := by
  have key1 : sumView (revenue_trend_M rows)
      = sumRevenue (rows.filter (fun r => (r.order_date).isSome)) := by
    unfold revenue_trend_M
    rw [sumView_groupbyAgg monthLe Row.month rows]
    congr 1
    apply List.filter_congr
    intro r _
    cases h : r.order_date <;> simp [Row.month, h]
  refine ⟨key1, ?_, fun _ _ hm => mem_groupbyAgg hm, ?_, ?_, ?_, ?_, ?_⟩
  · rw [key1]
    have hsplit := sumRevenue_filter_split
      (fun r => (r.order_date).isSome) rows
    have hpred : rows.filter (fun r => !(r.order_date).isSome)
        = rows.filter (fun r => r.order_date = none) := by
      apply List.filter_congr
      intro r _
      cases h : r.order_date <;> simp [h]
    rw [hpred] at hsplit
    unfold total_revenue
    linarith [hsplit]
  · intro p v hm
    unfold top_products at hm
    have hm2 := List.mem_of_mem_take hm
    exact mem_groupbyAgg (mem_sortValuesDesc hm2)
  · simp [sumView, revenue_trend_M, groupbyAgg, keysOf, groupRows, sumRevenue,
      Row.revenue, Row.month, exC10, row0, List.insertionSort,
      List.orderedInsert, monthLe, List.dedup]
  · simp [total_revenue, sumRevenue, Row.revenue, exC10, row0]
    norm_num
  · simp [top_products, sortValuesDesc, groupbyAgg, keysOf, groupRows,
      sumRevenue, exC10, row0, Row.revenue, List.insertionSort,
      List.orderedInsert, strLe, strLeb, valAsc, List.dedup]
    norm_num
  · have h1 : sumView (revenue_trend_M exC10) = 100 := by
      simp [sumView, revenue_trend_M, groupbyAgg, keysOf, groupRows, sumRevenue,
        Row.revenue, Row.month, exC10, row0, List.insertionSort,
        List.orderedInsert, monthLe, List.dedup]
    have h2 : total_revenue exC10 = 150 := by
      simp [total_revenue, sumRevenue, Row.revenue, exC10, row0]
      norm_num
    rw [h1, h2]
    norm_num

/-- Witness for claim C10: product A's single ranking entry sums the
null-date row in as well. -/
theorem null_date_rows_c10_witness :
    (150 : ℚ) = sumRevenue (groupRows Row.product_id "A" exC10) := by
  have h := null_date_rows_c10 exC10
  exact h.2.2.2.1 "A" 150 (by rw [h.2.2.2.2.2.2.1]; simp)

end EDA

